import Mathlib

/-!
Verification of the playtimed parental-control daemon against its
natural-language specification.

The definitions below are a shallow embedding of the Python source:

  * `src/playtimed/db.py`      — schedule/limits accessors, daily summary
  * `src/playtimed/main.py`    — the monitor loop (`PlaytimeDaemon`)
  * `src/playtimed/router.py`  — the message router

Strings are modelled as Lean `String`/`List Char`; timestamps as natural
numbers of seconds; CPU percentages as rationals (the Python floats are
only ever compared against thresholds); SQLite rows as structures with
`Option` for NULLable columns.  Fallible Python code (raised exceptions)
is modelled with `Option`/`Except`.
-/

namespace Playtimed

/-! ## Schedule constants and accessors (db.py) -/

/-- `SCHEDULE_LEN = 168` (db.py line 17). -/
def SCHEDULE_LEN : Nat := 168

/-- `DEFAULT_SCHEDULE = '0' * SCHEDULE_LEN` (db.py line 18): the all-zeros
168-character schedule. -/
def DEFAULT_SCHEDULE : String := String.mk (List.replicate SCHEDULE_LEN '0')

/-- A `user_limits` row, restricted to the columns the claims need.
`schedule` and `daily_limits` are NULLable TEXT columns. -/
structure UserLimitsRow where
  schedule : Option String
  daily_limits : Option String
  enabled : Bool
deriving Repr, DecidableEq

/-- `ActivityDB.get_schedule` (db.py lines 1152-1157): the 168-char schedule
string for a user, where a missing row or a NULL/empty stored schedule
falls back to `DEFAULT_SCHEDULE` (Python `limits.get('schedule') or
DEFAULT_SCHEDULE`). -/
def get_schedule (limits : Option UserLimitsRow) : String :=
  match limits with
  | none => DEFAULT_SCHEDULE
  | some l =>
    match l.schedule with
    | none => DEFAULT_SCHEDULE
    | some s => if s = "" then DEFAULT_SCHEDULE else s

/-- `PlaytimeDaemon._is_allowed_time` (main.py lines 812-821), with the
current weekday and hour passed explicitly: gaming is allowed iff
`schedule[weekday*24 + hour] == '1'`.  (Out-of-range indexing, which the
Python would raise on, reads as a non-`'1'` character here; every schedule
the daemon stores has length 168 and `weekday*24 + hour < 168`.) -/
def is_allowed_time (schedule : String) (weekday hour : Nat) : Bool :=
  schedule.data.getD (weekday * 24 + hour) ' ' == '1'

/-! ## Elapsed-time accounting (main.py `_process_user`, db.py) -/

/-- The elapsed-seconds computation of `_process_user` (main.py lines
956-968): zero unless `last_poll_at` is set and gaming was active at the
previous tick, otherwise `now - last_poll_at` capped at
`2 * poll_interval`. -/
def computeElapsed (poll_interval : Nat) (was_gaming_active : Bool)
    (last_poll_at : Option Nat) (now : Nat) : Nat :=
  match last_poll_at with
  | none => 0
  | some t =>
    if was_gaming_active then
      let elapsed := now - t
      let max_elapsed := poll_interval * 2
      if elapsed > max_elapsed then max_elapsed else elapsed
    else 0

/-- A `daily_summary` row (accounting columns used by the claims). -/
structure DailySummary where
  gaming_time : Nat
  total_time : Nat
  warnings_sent : Nat
  enforcements : Nat
deriving Repr, DecidableEq

/-- `ActivityDB.update_daily_summary` (db.py lines 672-687): upsert that
adds the given seconds/counts to today's row, creating it with those
values if absent. -/
def update_daily_summary (row : Option DailySummary)
    (gaming_seconds total_seconds warnings enforcements : Nat) : DailySummary :=
  match row with
  | none =>
    { gaming_time := gaming_seconds, total_time := total_seconds,
      warnings_sent := warnings, enforcements := enforcements }
  | some s =>
    { gaming_time := s.gaming_time + gaming_seconds,
      total_time := s.total_time + total_seconds,
      warnings_sent := s.warnings_sent + warnings,
      enforcements := s.enforcements + enforcements }

/-- The per-tick summary write of `_process_user` (main.py lines
1073-1076): the elapsed seconds are credited to both gaming and total
time only when gaming was active at the previous tick, and the number of
kills this cycle is added to `enforcements`. -/
def tickSummaryUpdate (row : Option DailySummary) (was_gaming_active : Bool)
    (elapsed_seconds kills_this_cycle : Nat) : DailySummary :=
  update_daily_summary row
    (if was_gaming_active then elapsed_seconds else 0)
    (if was_gaming_active then elapsed_seconds else 0)
    0 kills_this_cycle

/-! ## The gaming-process scan and its hysteresis (main.py) -/

/-- The `ProcessMatch` dataclass (main.py lines 134-143). -/
structure ProcessMatch where
  pid : Nat
  name : String
  category : String
  cmdline : String
  cpu_percent : ℚ := 0
  session_id : Option Nat := none
  low_cpu_count : Nat := 0
deriving Repr, DecidableEq

/-- The per-process tracking decision of `_find_gaming_processes`
(main.py lines 536-571), for a process that matched a gaming pattern:
given the previous tick's entry for this pid (if tracked), the process's
CPU and the pattern's `cpu_threshold`, return the new tracking entry, or
`none` when the pid is not (or no longer) tracked.  A tracked pid whose
`low_cpu_count` reaches 3 is dropped (`continue`); a tick at or above
the threshold resets the counter.  (`session_id` is carried over exactly
when the previous entry had one; session ids are sqlite rowids ≥ 1, so
Python's truthiness test on them is just presence.) -/
def gamingTrackStep (prev : Option ProcessMatch) (pid : Nat) (display_name : String)
    (cmdline : String) (cpu cpu_threshold : ℚ) : Option ProcessMatch :=
  let above_threshold : Bool := cpu_threshold ≤ cpu
  let already_tracked : Bool := prev.isSome
  if above_threshold || already_tracked then
    let base : ProcessMatch :=
      { pid := pid, name := display_name, category := "gaming",
        cmdline := cmdline, cpu_percent := cpu }
    match prev with
    | none => some base
    | some p =>
      if above_threshold then
        some { base with session_id := p.session_id, low_cpu_count := 0 }
      else if p.low_cpu_count + 1 ≥ 3 then none
      else some { base with session_id := p.session_id,
                            low_cpu_count := p.low_cpu_count + 1 }
  else none

/-- `n` consecutive sub-threshold ticks (`cpu < cpu_threshold`) of
`gamingTrackStep` applied to a tracked pid. -/
def iterSubThreshold (pid : Nat) (display_name cmdline : String)
    (cpu cpu_threshold : ℚ) (st : Option ProcessMatch) : Nat → Option ProcessMatch
  | 0 => st
  | n + 1 =>
    (iterSubThreshold pid display_name cmdline cpu cpu_threshold st n).bind
      (fun p => gamingTrackStep (some p) pid display_name cmdline cpu cpu_threshold)

/-! ## Pattern catalogue, matching, and exclusion (main.py, db.py) -/

/-- A `process_patterns` row (the columns the claims need). -/
structure PatternRow where
  id : Nat
  pattern : String
  name : String
  category : Option String
  monitor_state : String
  owner : Option String
  enabled : Bool
  cpu_threshold : ℚ
  discovered_cmdline : Option String
deriving Repr, DecidableEq

/-- ASCII lower-casing (`str.lower` restricted to the ASCII process and
pattern names involved). -/
def lowerStr (s : String) : String := String.mk (s.data.map Char.toLower)

/-- The characters Python's `re.escape` (Python ≥ 3.7) escapes: the
characters special to regular expressions and ASCII whitespace. -/
def RE_SPECIAL_CHARS : List Char :=
  ['(', ')', '[', ']', '\x7b', '\x7d', '?', '*', '+', '-', '|', '^', '$',
   '\\', '.', '&', '~', '#', ' ', '\t', '\n', '\r', '\x0b', '\x0c']

/-- Python `re.escape`: backslash-escape every special character, leaving
ordinary characters unchanged. -/
def re_escape (s : String) : String :=
  String.mk (s.data.flatMap (fun c => if c ∈ RE_SPECIAL_CHARS then ['\\', c] else [c]))

/-- Parse a pattern of the escaped-literal regex fragment: a sequence of
ordinary characters and backslash-escaped characters, optionally ending
in a `$` anchor; yields the denoted literal and whether it is anchored at
the end.  Every pattern the settled claims involve (`\.exe$` and plain
process-name literals such as those `re.escape` produces) lies in this
fragment; patterns outside it parse to `none` and are treated by
`match_process_to_pattern` below like patterns that fail to compile. -/
def parseLiteralRegex : List Char → Option (List Char × Bool)
  | [] => some ([], false)
  | ['$'] => some ([], true)
  | '\\' :: c :: rest => (parseLiteralRegex rest).map (fun p => (c :: p.1, p.2))
  | c :: rest =>
    if c ∈ RE_SPECIAL_CHARS then none
    else (parseLiteralRegex rest).map (fun p => (c :: p.1, p.2))

/-- Whether `needle` occurs anywhere in `hay` (Python `in`, and the
positions `re.search` scans). -/
def containsSub (hay needle : List Char) : Bool :=
  hay.tails.any (fun t => needle.isPrefixOf t)

/-- `re.search(pattern, s, re.IGNORECASE)` for patterns of the
escaped-literal fragment: the literal is sought case-insensitively
anywhere in the string — at its end when the pattern carries the `$`
anchor. -/
def regexSearch (pattern s : String) : Option Bool :=
  (parseLiteralRegex pattern.data).map (fun p =>
    if p.2 then (p.1.map Char.toLower).isSuffixOf (s.data.map Char.toLower)
    else containsSub (s.data.map Char.toLower) (p.1.map Char.toLower))

/-- `_match_process_to_pattern` (main.py lines 495-506): the first pattern
of the list whose regex matches the command line or the process name,
case-insensitively; a pattern that fails to compile (here: a pattern
outside the modelled fragment) is skipped. -/
def match_process_to_pattern (proc_name cmdline : String)
    (patterns : List PatternRow) : Option PatternRow :=
  patterns.find? (fun pdef =>
    match regexSearch pdef.pattern cmdline, regexSearch pdef.pattern proc_name with
    | some b1, some b2 => b1 || b2
    | _, _ => false)

/-- `SYSTEM_PROCESSES` (main.py lines 297-305). -/
def SYSTEM_PROCESSES : List String :=
  ["systemd", "dbus-daemon", "pipewire", "pulseaudio", "wireplumber",
   "kwin", "kwin_wayland", "kwin_x11", "plasmashell", "kded5", "kded6",
   "Xorg", "Xwayland", "gnome-shell", "mutter",
   "sddm", "gdm", "gdm-session", "lightdm", "login", "agetty",
   "sudo", "su", "ssh", "sshd", "notify-send", "dbus-launch",
   "polkitd", "upowerd", "thermald", "acpid"]

/-- `SHELL_PROCESSES` (main.py line 308): the static set of interactive
shells. -/
def SHELL_PROCESSES : List String :=
  ["bash", "zsh", "fish", "sh", "dash", "csh", "tcsh"]

/-- `_is_excluded_process` (main.py lines 351-384).  `our_pid` is the
daemon's pid; `ppid_of` is the OS parent-pid lookup (`none` when the
process vanished).  Note the second test excludes a process whose PARENT
is the daemon (`psutil.Process(pid).ppid() == self.our_pid`), not the
daemon's own parent. -/
def is_excluded_process (our_pid : Nat) (ppid_of : Nat → Option Nat)
    (proc_name cmdline : String) (pid : Nat) : Bool :=
  if pid = our_pid then true
  else if ppid_of pid = some our_pid then true
  else if proc_name ∈ SYSTEM_PROCESSES then true
  else if proc_name ∈ SHELL_PROCESSES then true
  else if containsSub (lowerStr proc_name).data "playtimed".data then
    containsSub (lowerStr cmdline).data "python".data &&
      containsSub cmdline.data "playtimed.main".data
  else false

/-- A process as enumerated by `psutil.process_iter` (pid, name, command
line, owning user, instantaneous CPU percent). -/
structure ProcInfo where
  pid : Nat
  name : String
  cmdline : String
  username : String
  cpu : ℚ
deriving Repr, DecidableEq

/-- `_find_gaming_processes` (main.py lines 508-579): over the enumerated
processes of one user, skip other users' processes and launcher matches,
match the gaming patterns, and apply the CPU-threshold/hysteresis rule
(`gamingTrackStep`).  NOTE (faithful to the source): this scan applies no
`_is_excluded_process` check — the exclusion rules run only in
`_scan_all_processes`. -/
def find_gaming_processes (user : String)
    (launcher_patterns gaming_patterns : List PatternRow)
    (prev_games : Nat → Option ProcessMatch) (procs : List ProcInfo) :
    List ProcessMatch :=
  procs.foldl (fun acc proc =>
    if proc.username ≠ user then acc
    else if (match_process_to_pattern proc.name proc.cmdline launcher_patterns).isSome then
      acc
    else
      match match_process_to_pattern proc.name proc.cmdline gaming_patterns with
      | none => acc
      | some pdef =>
        match gamingTrackStep (prev_games proc.pid) proc.pid pdef.name
            (String.mk (proc.cmdline.data.take 100)) proc.cpu pdef.cpu_threshold with
        | none => acc
        | some m => acc ++ [m]) []

/-! ## The Enforcer (`_kill_process`, main.py lines 858-926) -/

/-- What one `_kill_process` call does: the signals sent (in order) and
the audit events logged. -/
structure KillOutcome where
  signals : List (String × Nat)
  events : List String
deriving Repr, DecidableEq

/-- `_kill_process` (main.py lines 858-926).  In passthrough mode a no-op
that logs only.  Otherwise: SIGTERM the root — with no exclusion check on
the root pid — then SIGTERM each child that is not excluded, SIGKILL the
root if it did not exit within the wait, SIGKILL each child still alive,
and log a `terminated` event.  `graceful_exit` abstracts whether the root
exited within the 10 s wait; `still_alive` abstracts `child.is_running()`
at the SIGKILL pass. -/
def kill_process (mode : String) (our_pid : Nat) (ppid_of : Nat → Option Nat)
    (proc : ProcessMatch) (children : List ProcInfo)
    (graceful_exit : Bool) (still_alive : Nat → Bool) : KillOutcome :=
  if mode = "passthrough" then { signals := [], events := [] }
  else
    let term_root := [("SIGTERM", proc.pid)]
    let term_children := (children.filter (fun c =>
        !(is_excluded_process our_pid ppid_of c.name c.cmdline c.pid))).map
        (fun c => ("SIGTERM", c.pid))
    let kill_root := if graceful_exit then [] else [("SIGKILL", proc.pid)]
    let kill_children := (children.filter (fun c => still_alive c.pid)).map
        (fun c => ("SIGKILL", c.pid))
    { signals := term_root ++ term_children ++ kill_root ++ kill_children,
      events := ["terminated"] }

/-! ## Catch-all auto-discovery (main.py lines 624-630 and 777-810) -/

/-- `ActivityDB.get_pattern_by_name_and_owner` (db.py lines 990-997): the
first catalogue row whose `name` equals the given name and whose `owner`
is the given user or NULL. -/
def get_pattern_by_name_and_owner (db : List PatternRow) (name owner : String) :
    Option PatternRow :=
  db.find? (fun r => r.name == name && (r.owner == some owner || r.owner == none))

/-- `ActivityDB.discover_pattern` (db.py lines 976-988): insert a new
enabled pattern row with the given text, display name, owner, state,
category and CPU threshold, recording the triggering command line; the
id is the fresh sqlite rowid. -/
def discover_pattern (db : List PatternRow) (pattern name owner cmdline : String)
    (cpu_threshold : ℚ) (category : Option String) (state : String) :
    List PatternRow :=
  db ++ [{ id := db.length + 1, pattern := pattern, name := name,
           category := category, monitor_state := state, owner := some owner,
           enabled := true, cpu_threshold := cpu_threshold,
           discovered_cmdline := some cmdline }]

/-- The guard in front of catch-all auto-discovery in
`_scan_all_processes` (main.py lines 624-630): the matched pattern is
global (owner NULL), its text is exactly the catch-all `\.exe$`, and the
process name ends in `.exe` case-insensitively. -/
def catchall_guard (matched : PatternRow) (proc_name : String) : Bool :=
  matched.owner == none && matched.pattern == "\\.exe$" &&
    ".exe".data.isSuffixOf (lowerStr proc_name).data

/-- `_discover_from_catchall` (main.py lines 777-810): if no pattern named
after this process exists for this user (or globally), create a
user-owned `active` pattern whose display name strips a trailing `.exe`,
whose regex is the `re.escape`d literal process name, and whose category
and CPU threshold come from the catch-all row (`dict.get` with a default
on keys the row always carries).  The `seen_pids` insert for the
triggering pid is a separate table and is elided here. -/
def discover_from_catchall (db : List PatternRow) (user proc_name cmdline : String)
    (catchall_pattern : PatternRow) : List PatternRow :=
  match get_pattern_by_name_and_owner db proc_name user with
  | some _ => db
  | none =>
    let display_name :=
      if ".exe".data.isSuffixOf (lowerStr proc_name).data
      then String.mk (proc_name.data.take (proc_name.length - 4))
      else proc_name
    let pattern_regex := re_escape proc_name
    discover_pattern db pattern_regex display_name user
      (String.mk (cmdline.data.take 200)) catchall_pattern.cpu_threshold
      catchall_pattern.category "active"

/-! ## Daily limits codec and schedule export/import (db.py, main.py) -/

/-- The decimal digits of `n`, most significant first — `str(n)` for a
non-negative Python int. -/
def natToChars (n : Nat) : List Char :=
  if n = 0 then ['0']
  else ((Nat.digits 10 n).reverse).map (fun d => Char.ofNat (48 + d))

/-- `str(i)` for a Python int: a minus sign followed by the digits when
negative. -/
def intToChars (i : Int) : List Char :=
  if i < 0 then '-' :: natToChars i.natAbs else natToChars i.toNat

/-- Parse a nonempty run of decimal digits (the digits of Python
`int(str)`); anything else is a `ValueError` (`none`). -/
def parseNatDigits (s : List Char) : Option Nat :=
  if s ≠ [] ∧ s.all Char.isDigit then
    some (s.foldl (fun acc c => 10 * acc + (c.toNat - 48)) 0)
  else none

/-- Python `int(str)` restricted to the decimal literals this program
stores: an optional minus sign followed by digits. -/
def parseInt (s : List Char) : Option Int :=
  if s.head? = some '-' then (parseNatDigits s.tail).map (fun n => -(Int.ofNat n))
  else (parseNatDigits s).map Int.ofNat

/-- `str.split(',')`. -/
def splitComma : List Char → List (List Char)
  | [] => [[]]
  | c :: rest =>
    if c = ',' then [] :: splitComma rest
    else
      match splitComma rest with
      | [] => [[c]]
      | part :: parts => (c :: part) :: parts

/-- `','.join`. -/
def joinComma : List (List Char) → List Char
  | [] => []
  | [part] => part
  | part :: parts => part ++ ',' :: joinComma parts

/-- `parse_daily_limits` (db.py lines 22-29): an empty string or a wrong
number of comma-separated parts falls back to seven 120s; otherwise each
part goes through `int` (`ValueError` is `none`). -/
def parse_daily_limits (s : List Char) : Option (List Int) :=
  if s = [] then some (List.replicate 7 120)
  else
    let parts := splitComma s
    if parts.length ≠ 7 then some (List.replicate 7 120)
    else parts.mapM parseInt

/-- `format_daily_limits` (db.py lines 32-34): comma-join the decimal
representations. -/
def format_daily_limits (limits : List Int) : List Char :=
  joinComma (limits.map intToChars)

/-- `ActivityDB.get_daily_limits` (db.py lines 1168-1175): seven 120s for
a missing row or a NULL/empty stored value, otherwise the parsed stored
string. -/
def get_daily_limits (row : Option UserLimitsRow) : Option (List Int) :=
  match row with
  | none => some (List.replicate 7 120)
  | some r =>
    match r.daily_limits with
    | none => some (List.replicate 7 120)
    | some dl =>
      if dl = "" then some (List.replicate 7 120)
      else parse_daily_limits dl.data

/-- `ActivityDB.set_schedule` (db.py lines 1159-1166) on the row
(`updated_at` metadata elided). -/
def set_schedule (r : UserLimitsRow) (schedule : String) : UserLimitsRow :=
  { r with schedule := some schedule }

/-- `ActivityDB.set_daily_limits` (db.py lines 1177-1185) on the row:
store the formatted comma string (`updated_at` metadata elided). -/
def set_daily_limits (r : UserLimitsRow) (limits : List Int) : UserLimitsRow :=
  { r with daily_limits := some (String.mk (format_daily_limits limits)) }

/-- One user's entry of the export JSON. -/
structure ScheduleExport where
  schedule : String
  daily_limits : List Int
deriving Repr, DecidableEq

/-- `cmd_schedule_export` (main.py lines 2010-2035) for one user with an
existing `user_limits` row: the values the accessors return (a stored
`daily_limits` that `int` cannot parse raises, hence `none`). -/
def schedule_export (r : UserLimitsRow) : Option ScheduleExport :=
  (get_daily_limits (some r)).map (fun dl =>
    { schedule := get_schedule (some r), daily_limits := dl })

/-- The per-entry validation of `cmd_schedule_import` (main.py lines
2056-2078): schedule of length 168 over the alphabet 0/1, and
`daily_limits` a 7-element list of non-negative integers.  (The user
must also exist; here the row is given.) -/
def import_entry_valid (e : ScheduleExport) : Bool :=
  e.schedule.length == 168 &&
    e.schedule.data.all (fun c => c == '0' || c == '1') &&
    e.daily_limits.length == 7 &&
    e.daily_limits.all (fun x => decide (0 ≤ x))

/-- `cmd_schedule_import` (main.py lines 2038-2088) applied to one user's
entry: on validation failure nothing is written (exit 1); otherwise the
schedule and the daily limits are stored. -/
def schedule_import (e : ScheduleExport) (r : UserLimitsRow) : Option UserLimitsRow :=
  if import_entry_valid e then
    some (set_daily_limits (set_schedule r e.schedule) e.daily_limits)
  else none

/-! ## The Strict-pending map (`_scan_all_processes`, `_handle_strict_unknown`) -/

/-- A Strict-pending entry (main.py lines 684-691): process name, the
time the warning was sent, owner, and command line. -/
structure StrictEntry where
  name : String
  warned_at : Nat
  user : String
  cmdline : String
deriving Repr, DecidableEq

/-- One observation of the per-user scan loop of `_scan_all_processes`
(main.py lines 592-655), with the inputs that drive the Strict-pending
map made explicit: whether `_is_excluded_process` held for it (line 602),
whether `cpu_percent` raised `NoSuchProcess` after the pid was already
added to `seen_pids` (lines 605-610), the CPU reading, and the
`monitor_state` of the pattern `_match_process_to_pattern` returned, if
any (line 613). -/
structure ScanObs where
  pid : Nat
  name : String
  cmdline : String
  excluded : Bool
  vanished : Bool
  cpu : ℚ
  match_state : Option String
deriving Repr, DecidableEq

/-- The in-memory Strict-pending map, pid to entry. -/
def PendingMap : Type := Nat → Option StrictEntry

/-- The effect of one loop iteration of `_scan_all_processes` (main.py
lines 592-655, with `_handle_strict_unknown`, lines 679-711) on the pair
(Strict-pending map, `seen_pids`): excluded processes are skipped before
`seen_pids.add`; a vanished process is seen but not processed; a matched
pid is dropped from the map when the pattern's state is `active` or
`ignored` (line 642); an unmatched pid in strict mode at or above the
discovery CPU threshold is newly warned, or — when already pending with
its grace elapsed — terminated and removed (lines 700-711). -/
def scanStep (mode : String) (discovery_cpu_threshold : ℚ)
    (grace_seconds now : Nat) (user : String)
    (st : PendingMap × List Nat) (o : ScanObs) : PendingMap × List Nat :=
  if o.excluded then st
  else
    let seen := o.pid :: st.2
    if o.vanished then (st.1, seen)
    else
      match o.match_state with
      | some state =>
        if (st.1 o.pid).isSome ∧ (state = "active" ∨ state = "ignored") then
          (fun p => if p = o.pid then none else st.1 p, seen)
        else (st.1, seen)
      | none =>
        if mode = "strict" ∧ discovery_cpu_threshold ≤ o.cpu then
          match st.1 o.pid with
          | none =>
            (fun p => if p = o.pid then
                some { name := o.name, warned_at := now, user := user,
                       cmdline := o.cmdline }
              else st.1 p, seen)
          | some e =>
            if grace_seconds ≤ now - e.warned_at then
              (fun p => if p = o.pid then none else st.1 p, seen)
            else (st.1, seen)
        else (st.1, seen)

/-- The Strict-pending map after one user's scan: fold the loop over the
user's observations starting from an empty `seen_pids`, then purge every
pid not in `seen_pids` (main.py lines 657-660). -/
def scan_strict_pending (mode : String) (thr : ℚ) (grace now : Nat) (user : String)
    (pending : PendingMap) (obs : List ScanObs) : PendingMap :=
  let st := obs.foldl (scanStep mode thr grace now user) (pending, [])
  fun p => if p ∈ st.2 then st.1 p else none

/-- The transition one non-excluded observation applies to its own pid's
pending entry (factored out of `scanStep`). -/
def stepAt (mode : String) (thr : ℚ) (grace now : Nat) (user : String)
    (o : ScanObs) (v : Option StrictEntry) : Option StrictEntry :=
  if o.vanished then v
  else
    match o.match_state with
    | some state =>
      if v.isSome ∧ (state = "active" ∨ state = "ignored") then none else v
    | none =>
      if mode = "strict" ∧ thr ≤ o.cpu then
        match v with
        | none => some { name := o.name, warned_at := now, user := user,
                         cmdline := o.cmdline }
        | some e => if grace ≤ now - e.warned_at then none else some e
      else v

/-- The per-pid statement of the amended C3: after one user's scan a pid
is pending iff it was observed (non-excluded) during that scan and the
transition of its own observation, applied to its previous entry, keeps
or creates one.  Unobserved pids are purged. -/
def expected_pending (mode : String) (thr : ℚ) (grace now : Nat) (user : String)
    (pending : PendingMap) (obs : List ScanObs) (p : Nat) : Option StrictEntry :=
  match obs.find? (fun o => o.pid == p && !o.excluded) with
  | none => none
  | some o => stepAt mode thr grace now user o (pending p)

/-! ## The new-game branch of `_process_user` (main.py lines 996-1027) -/

/-- One observable action of a tick, in program order. -/
inductive TickAction where
  | event (etype : String)
  | intention (name : String)
  | signal (sig : String) (pid : Nat)
  | sessionStart (pid : Nat)
deriving Repr, DecidableEq

/-- router.py line 300: `MessageRouter.outside_hours(self, user,
allowed_window)` accepts two arguments besides `self`. -/
def router_outside_hours_params : Nat := 2

/-- main.py lines 1005-1006: `_process_user` calls
`router.outside_hours(user, weekday_start, weekday_end)` with three
arguments besides the receiver. -/
def router_outside_hours_call_args : Nat := 3

def killOutcomeActions (k : KillOutcome) : List TickAction :=
  k.signals.map (fun s => TickAction.signal s.1 s.2) ++ k.events.map TickAction.event

/-- The handling of one newly detected gaming pid in `_process_user`
(main.py lines 996-1027), as the ordered list of actions plus the
increment of `kills_this_cycle`.  A Python `TypeError` — raised when a
call's argument count does not meet the callee's signature — is the
`Except.error` case and aborts the user's tick (the `try`/`except` is in
`run`, outside `_process_user`). -/
def process_new_game (mode : String) (our_pid : Nat) (ppid_of : Nat → Option Nat)
    (allowed : Bool) (gaming_remaining : Nat) (game : ProcessMatch)
    (children : List ProcInfo) (graceful_exit : Bool) (still_alive : Nat → Bool) :
    Except String (List TickAction × Nat) :=
  let detected := [TickAction.event "game_detected"]
  if ¬ allowed then
    if router_outside_hours_call_args ≠ router_outside_hours_params then
      Except.error "TypeError: outside_hours() takes 3 positional arguments but 4 were given"
    else
      Except.ok (detected ++
        [TickAction.intention "outside_hours", TickAction.event "blocked_schedule"] ++
        killOutcomeActions
          (kill_process mode our_pid ppid_of game children graceful_exit still_alive), 1)
  else if gaming_remaining ≤ 0 then
    Except.ok (detected ++
      [TickAction.intention "blocked_launch", TickAction.event "blocked_quota"] ++
      killOutcomeActions
        (kill_process mode our_pid ppid_of game children graceful_exit still_alive), 1)
  else
    Except.ok (detected ++
      [TickAction.sessionStart game.pid, TickAction.event "game_start",
       TickAction.intention "process_start"], 0)

/-! ## Message template rendering (router.py `_render`) -/

/-- Python regex word characters (`\w`) over the ASCII alphabet the
stored templates use: letters, digits and the underscore. -/
def isWordChar (c : Char) : Bool := c.isAlphanum || c == '_'

/-- `MessageRouter._render` (router.py lines 158-168): scan the template
left to right; at each opening brace followed by a nonempty maximal run
of word characters and a closing brace (exactly the matches of the
pattern used by `re.sub`, brace + `\w+` + brace), replace the whole
placeholder by the context's value for that name, or leave it verbatim
when the name is not a key of the context (`context.get(var_name,
match.group(0))`).  All other characters are copied unchanged.  The
function is total — the Python, using `re.sub` with a replacement
function built on `dict.get` with a default, can likewise never raise. -/
def render (context : String → Option String) : List Char → List Char
  | [] => []
  | c :: rest =>
    if c = '\x7b' ∧ rest.takeWhile isWordChar ≠ [] ∧
        (rest.dropWhile isWordChar).head? = some '\x7d' then
      (match context (String.mk (rest.takeWhile isWordChar)) with
       | some v => v.data
       | none => '\x7b' :: (rest.takeWhile isWordChar ++ ['\x7d'])) ++
        render context (rest.dropWhile isWordChar).tail
    else c :: render context rest
termination_by l => l.length
decreasing_by
  · have h1 : ∀ l : List Char, (l.dropWhile isWordChar).length ≤ l.length := by
      intro l
      induction l with
      | nil => simp
      | cons a l ih =>
        rw [List.dropWhile_cons]
        split
        · exact Nat.le_succ_of_le ih
        · exact Nat.le_refl _
    have h2 : (rest.dropWhile isWordChar).tail.length
        = (rest.dropWhile isWordChar).length - 1 := List.length_tail _
    have h3 := h1 rest
    simp only [List.length_cons]
    omega
  · simp only [List.length_cons]
    omega

/-- A decomposition of a template into literal runs and placeholders,
used to state what `render` does to every placeholder at once. -/
inductive TemplateTok where
  | lit (s : List Char)
  | placeholder (name : List Char)
deriving Repr, DecidableEq

/-- The template text a token list denotes: placeholders are written as
an opening brace, the name, and a closing brace. -/
def flattenTemplate : List TemplateTok → List Char
  | [] => []
  | .lit s :: ts => s ++ flattenTemplate ts
  | .placeholder w :: ts => '\x7b' :: (w ++ ('\x7d' :: flattenTemplate ts))

/-- What the spec says a single token renders to: literals unchanged,
placeholders replaced by the context value when the name is a key and
kept verbatim otherwise. -/
def substTok (context : String → Option String) : TemplateTok → List Char
  | .lit s => s
  | .placeholder w =>
    match context (String.mk w) with
    | some v => v.data
    | none => '\x7b' :: (w ++ ['\x7d'])

/-- Well-formedness of a token: a literal run holds no opening brace and
a placeholder name is a nonempty run of word characters. -/
def TokWF : TemplateTok → Prop
  | .lit s => '\x7b' ∉ s
  | .placeholder w => w ≠ [] ∧ ∀ c ∈ w, isWordChar c = true

instance : DecidablePred TokWF := by
  intro t
  cases t <;> simp only [TokWF] <;> infer_instance

end Playtimed

namespace Playtimed

/-! ## Theorems: C9 and C4 -/

/-- C9: with a missing `user_limits` row, or a NULL or empty stored
schedule, `get_schedule` returns the all-'0' 168-character default, and
`_is_allowed_time` therefore reports gaming disallowed at every weekday
and hour — the undocumented default is fail-closed. -/
theorem get_schedule_default_fail_closed (limits : Option UserLimitsRow)
    (h : limits = none ∨ ∃ l, limits = some l ∧ (l.schedule = none ∨ l.schedule = some "")) :
    get_schedule limits = DEFAULT_SCHEDULE ∧
    DEFAULT_SCHEDULE.length = 168 ∧
    (∀ c ∈ DEFAULT_SCHEDULE.data, c = '0') ∧
    ∀ weekday hour : Nat, weekday < 7 → hour < 24 →
      is_allowed_time (get_schedule limits) weekday hour = false := by
  have hdef : get_schedule limits = DEFAULT_SCHEDULE := by
    rcases h with h | ⟨l, hl, h⟩
    · simp [h, get_schedule]
    · rcases h with h | h <;> simp [hl, get_schedule, h]
  refine ⟨hdef, ?_, ?_, ?_⟩
  · simp only [DEFAULT_SCHEDULE, SCHEDULE_LEN, String.length, List.length_replicate]
  · intro c hc
    have : c ∈ List.replicate SCHEDULE_LEN '0' := hc
    exact List.eq_of_mem_replicate this
  · intro weekday hour hw hh
    rw [hdef]
    have hidx : weekday * 24 + hour < SCHEDULE_LEN := by
      have h1 : weekday * 24 ≤ 6 * 24 := Nat.mul_le_mul_right 24 (Nat.lt_succ_iff.mp hw)
      simp only [SCHEDULE_LEN]; omega
    have hchar : (DEFAULT_SCHEDULE.data).getD (weekday * 24 + hour) ' ' = '0' := by
      simp only [DEFAULT_SCHEDULE, String.mk]
      rw [List.getD_eq_getElem _ _ (by simpa using hidx)]
      simp
    simp only [is_allowed_time, hchar]
    decide

/-- C9 witness: a missing row yields the default schedule and, for
example, Wednesday 12:00 is disallowed. -/
theorem get_schedule_default_fail_closed_witness :
    get_schedule none = DEFAULT_SCHEDULE ∧
    is_allowed_time (get_schedule none) 2 12 = false := by
  have h := get_schedule_default_fail_closed none (Or.inl rfl)
  exact ⟨h.1, h.2.2.2 2 12 (by decide) (by decide)⟩

/-- C4: with gaming active at the previous tick and
`last_poll_at = now - T`, the tick's elapsed time is exactly
`min T (2 * poll_interval)`, and the daily summary's `gaming_time`
and `total_time` each grow by exactly that amount; in particular the
increment never exceeds `2 * poll_interval`, whatever the gap `T`. -/
theorem elapsed_capped_at_twice_poll (poll_interval T now : Nat)
    (s : DailySummary) (kills : Nat) (hT : T ≤ now) :
    computeElapsed poll_interval true (some (now - T)) now = min T (2 * poll_interval) ∧
    (tickSummaryUpdate (some s) true
        (computeElapsed poll_interval true (some (now - T)) now) kills).gaming_time
      = s.gaming_time + min T (2 * poll_interval) ∧
    (tickSummaryUpdate (some s) true
        (computeElapsed poll_interval true (some (now - T)) now) kills).total_time
      = s.total_time + min T (2 * poll_interval) ∧
    min T (2 * poll_interval) ≤ 2 * poll_interval := by
  have helap : computeElapsed poll_interval true (some (now - T)) now
      = min T (2 * poll_interval) := by
    have hsub : now - (now - T) = T := Nat.sub_sub_self hT
    simp only [computeElapsed, if_true, hsub]
    split <;> omega
  refine ⟨helap, ?_, ?_, Nat.min_le_right _ _⟩
  · rw [helap]; simp [tickSummaryUpdate, update_daily_summary]
  · rw [helap]; simp [tickSummaryUpdate, update_daily_summary]

theorem takeWhile_append_stop {α : Type} (p : α → Bool) (w : List α) (x : α)
    (l : List α) (hw : ∀ c ∈ w, p c = true) (hx : p x = false) :
    (w ++ x :: l).takeWhile p = w := by
  induction w with
  | nil => simp [List.takeWhile_cons, hx]
  | cons a w ih =>
    have ha : p a = true := hw a (List.mem_cons_self a w)
    simp only [List.cons_append, List.takeWhile_cons, ha, if_true]
    rw [ih (fun c hc => hw c (List.mem_cons_of_mem a hc))]

theorem dropWhile_append_stop {α : Type} (p : α → Bool) (w : List α) (x : α)
    (l : List α) (hw : ∀ c ∈ w, p c = true) (hx : p x = false) :
    (w ++ x :: l).dropWhile p = x :: l := by
  induction w with
  | nil => simp [List.dropWhile_cons, hx]
  | cons a w ih =>
    have ha : p a = true := hw a (List.mem_cons_self a w)
    simp only [List.cons_append, List.dropWhile_cons, ha, if_true]
    exact ih (fun c hc => hw c (List.mem_cons_of_mem a hc))

theorem render_append_lit (context : String → Option String) (s l : List Char)
    (hs : '\x7b' ∉ s) : render context (s ++ l) = s ++ render context l := by
  induction s with
  | nil => simp
  | cons c s ih =>
    have hc : ¬ c = '\x7b' := fun h => hs (h ▸ List.mem_cons_self c s)
    rw [List.cons_append, render, if_neg (fun h => hc h.1)]
    rw [ih (fun h => hs (List.mem_cons_of_mem c h)), List.cons_append]

/-- C7: for every template (decomposed into literal runs free of opening
braces and well-formed placeholders) and every rendering context, the
Message Router's `_render` replaces each placeholder whose name is a key
of the context by the context's value and leaves each placeholder whose
name is not in the context literally unchanged; `render` being a total
function, no input can make it fail. -/
theorem render_substitutes_placeholders (toks : List TemplateTok)
    (context : String → Option String) (hwf : ∀ t ∈ toks, TokWF t) :
    render context (flattenTemplate toks) = (toks.map (substTok context)).flatten := by
  induction toks with
  | nil => simp [flattenTemplate, render]
  | cons t ts ih =>
    have hts : ∀ t' ∈ ts, TokWF t' := fun t' ht' => hwf t' (List.mem_cons_of_mem t ht')
    have ht : TokWF t := hwf t (List.mem_cons_self t ts)
    cases t with
    | lit s =>
      simp only [flattenTemplate, List.map_cons, List.flatten_cons, substTok]
      rw [render_append_lit context s _ ht, ih hts]
    | placeholder w =>
      obtain ⟨hne, hword⟩ := ht
      have hbrace : isWordChar '\x7d' = false := by decide
      have htake : ((w ++ '\x7d' :: flattenTemplate ts).takeWhile isWordChar) = w :=
        takeWhile_append_stop _ _ _ _ hword hbrace
      have hdrop : ((w ++ '\x7d' :: flattenTemplate ts).dropWhile isWordChar)
          = '\x7d' :: flattenTemplate ts :=
        dropWhile_append_stop _ _ _ _ hword hbrace
      simp only [flattenTemplate, List.map_cons, List.flatten_cons]
      rw [render, if_pos ⟨rfl, by rw [htake]; exact hne, by rw [hdrop]; rfl⟩]
      rw [htake, hdrop]
      simp only [List.tail_cons]
      rw [ih hts]
      cases hctx : context (String.mk w) <;> simp [substTok, hctx]

/-- C7 witness: the template with literal runs and the placeholders
`user` (a key of the context, value `anders`) and `time_left` (not a
key, preserved literally). -/
theorem render_substitutes_placeholders_witness :
    render (fun s => if s = "user" then some "anders" else none)
      (flattenTemplate [TemplateTok.lit ("Hi ".data),
                        TemplateTok.placeholder ("user".data),
                        TemplateTok.lit (", ".data),
                        TemplateTok.placeholder ("time_left".data)])
      = ([TemplateTok.lit ("Hi ".data),
          TemplateTok.placeholder ("user".data),
          TemplateTok.lit (", ".data),
          TemplateTok.placeholder ("time_left".data)].map
            (substTok (fun s => if s = "user" then some "anders" else none))).flatten :=
  render_substitutes_placeholders _ _ (by decide)

/-- C6: when a process matches the global catch-all `\.exe$` (owner NULL,
pattern text exactly `\.exe$`, process name ending in `.exe`) and no
pattern with that process name exists for that user, a new user-owned
row is created with `monitor_state` `active`, category and
`cpu_threshold` inherited from the catch-all, display name the process
name minus its `.exe` suffix, and pattern text the regex-escaped literal
process name — with no admin action; the catch-all regex indeed matches
the process name. -/
theorem catchall_autodiscovery (db : List PatternRow) (user proc_name cmdline : String)
    (catchall : PatternRow)
    (hguard : catchall_guard catchall proc_name = true)
    (hnone : get_pattern_by_name_and_owner db proc_name user = none) :
    discover_from_catchall db user proc_name cmdline catchall
      = db ++ [{ id := db.length + 1,
                 pattern := re_escape proc_name,
                 name := String.mk (proc_name.data.take (proc_name.length - 4)),
                 category := catchall.category,
                 monitor_state := "active",
                 owner := some user,
                 enabled := true,
                 cpu_threshold := catchall.cpu_threshold,
                 discovered_cmdline := some (String.mk (cmdline.data.take 200)) }] ∧
    catchall.owner = none ∧ catchall.pattern = "\\.exe$" ∧
    regexSearch catchall.pattern proc_name = some true := by
  have hg := hguard
  simp only [catchall_guard, Bool.and_eq_true, beq_iff_eq] at hg
  obtain ⟨⟨howner, hpat⟩, hsuf⟩ := hg
  refine ⟨?_, howner, hpat, ?_⟩
  · simp only [discover_from_catchall, hnone, hsuf, if_true, discover_pattern]
  · rw [hpat]
    have hparse : parseLiteralRegex "\\.exe$".data = some (['.', 'e', 'x', 'e'], true) := by
      decide
    simp only [regexSearch, hparse, Option.map_some', if_true]
    have hlow : ['.', 'e', 'x', 'e'].map Char.toLower = ['.', 'e', 'x', 'e'] := by decide
    rw [hlow]
    exact congrArg some hsuf

/-- C6 witness: the FalloutNV scenario — the seeded global Proton catch-all
(`\.exe$`, category gaming, threshold 10) and a process `FalloutNV.exe`
yield a user-owned active pattern `FalloutNV\.exe` named `FalloutNV`. -/
theorem catchall_autodiscovery_witness :
    (discover_from_catchall [] "anders" "FalloutNV.exe" "wine FalloutNV.exe"
        { id := 5, pattern := "\\.exe$", name := "Proton Game",
          category := some "gaming", monitor_state := "active", owner := none,
          enabled := true, cpu_threshold := 10, discovered_cmdline := none }
      = [] ++ [{ id := List.length ([] : List PatternRow) + 1,
                 pattern := re_escape "FalloutNV.exe",
                 name := String.mk ("FalloutNV.exe".data.take ("FalloutNV.exe".length - 4)),
                 category := some "gaming",
                 monitor_state := "active",
                 owner := some "anders",
                 enabled := true,
                 cpu_threshold := 10,
                 discovered_cmdline := some (String.mk ("wine FalloutNV.exe".data.take 200)) }] ∧
      (none : Option String) = none ∧ "\\.exe$" = "\\.exe$" ∧
      regexSearch "\\.exe$" "FalloutNV.exe" = some true) ∧
    re_escape "FalloutNV.exe" = "FalloutNV\\.exe" ∧
    String.mk ("FalloutNV.exe".data.take ("FalloutNV.exe".length - 4)) = "FalloutNV" := by
  refine ⟨?_, by decide, by decide⟩
  exact catchall_autodiscovery [] "anders" "FalloutNV.exe" "wine FalloutNV.exe"
    { id := 5, pattern := "\\.exe$", name := "Proton Game",
      category := some "gaming", monitor_state := "active", owner := none,
      enabled := true, cpu_threshold := 10, discovered_cmdline := none }
    (by decide) rfl

/-- C2 (code-bug evidence): the exclusion rules are not applied on every
termination path.  With a user-owned gaming pattern whose regex matches
the interactive shell `bash`: (a) `_is_excluded_process` excludes `bash`,
(b) yet `_find_gaming_processes` — which never consults the exclusion
check — returns it in the gaming set that the over-quota and expiry
paths kill, and (c) `_kill_process` SIGTERMs that root pid without any
exclusion check.  Moreover (d) the "parent pid" rule is inverted: the
daemon (pid 100) has parent pid 50, but pid 50 is NOT excluded, while a
child of the daemon (pid 60, whose parent is 100) IS excluded. -/
theorem shell_killed_via_gaming_scan :
    is_excluded_process 100
      (fun p => if p = 100 then some 50 else if p = 50 then some 1
                else if p = 60 then some 100 else none)
      "bash" "bash /home/anders/game.sh" 777 = true ∧
    find_gaming_processes "anders" []
      [{ id := 9, pattern := "bash", name := "Terminal Game",
         category := some "gaming", monitor_state := "active",
         owner := some "anders", enabled := true, cpu_threshold := 5,
         discovered_cmdline := none }]
      (fun _ => none)
      [{ pid := 777, name := "bash", cmdline := "bash /home/anders/game.sh",
         username := "anders", cpu := 50 }]
      = [{ pid := 777, name := "Terminal Game", category := "gaming",
           cmdline := "bash /home/anders/game.sh", cpu_percent := 50,
           session_id := none, low_cpu_count := 0 }] ∧
    ("SIGTERM", 777) ∈ (kill_process "normal" 100
      (fun p => if p = 100 then some 50 else if p = 50 then some 1
                else if p = 60 then some 100 else none)
      { pid := 777, name := "Terminal Game", category := "gaming",
        cmdline := "bash /home/anders/game.sh", cpu_percent := 50,
        session_id := none, low_cpu_count := 0 }
      [] true (fun _ => false)).signals ∧
    is_excluded_process 100
      (fun p => if p = 100 then some 50 else if p = 50 then some 1
                else if p = 60 then some 100 else none)
      "customgame" "customgame --run" 50 = false ∧
    is_excluded_process 100
      (fun p => if p = 100 then some 50 else if p = 50 then some 1
                else if p = 60 then some 100 else none)
      "customgame" "customgame --run" 60 = true := by
  refine ⟨by decide, by decide, by decide, by decide, by decide⟩

/-- C1 (code-bug evidence): on a newly detected gaming process outside
allowed hours, `_process_user` calls `router.outside_hours` with three
arguments while the router method accepts two, so the call raises a
`TypeError` and the user's tick aborts: no `outside_hours` intention is
sent, no `blocked_schedule` event is logged, and the Enforcer is never
instructed to terminate the process. -/
theorem outside_hours_branch_raises_type_error :
    router_outside_hours_call_args ≠ router_outside_hours_params ∧
    process_new_game "normal" 100 (fun _ => none) false 3600
        { pid := 123, name := "Minecraft", category := "gaming",
          cmdline := "java -jar minecraft.jar", cpu_percent := 40,
          session_id := none, low_cpu_count := 0 }
        [] true (fun _ => false)
      = Except.error
          "TypeError: outside_hours() takes 3 positional arguments but 4 were given" := by
  exact ⟨by decide, rfl⟩

/-- C10: in passthrough mode, a gaming process newly detected within
allowed hours with zero remaining gaming time still logs a
`blocked_quota` event, fires the `blocked_launch` intention, and counts
one enforcement into the daily summary, even though `_kill_process` is a
no-op that sends no signal and records no `terminated` event. -/
theorem passthrough_blocked_quota_frame (our_pid : Nat) (ppid_of : Nat → Option Nat)
    (game : ProcessMatch) (children : List ProcInfo) (graceful_exit : Bool)
    (still_alive : Nat → Bool) (s : DailySummary)
    (was_gaming_active : Bool) (elapsed : Nat) :
    process_new_game "passthrough" our_pid ppid_of true 0 game children
        graceful_exit still_alive
      = Except.ok ([TickAction.event "game_detected",
                    TickAction.intention "blocked_launch",
                    TickAction.event "blocked_quota"], 1) ∧
    kill_process "passthrough" our_pid ppid_of game children graceful_exit still_alive
      = { signals := [], events := [] } ∧
    (tickSummaryUpdate (some s) was_gaming_active elapsed 1).enforcements
      = s.enforcements + 1 := by
  refine ⟨?_, rfl, rfl⟩
  simp [process_new_game, kill_process, killOutcomeActions]

theorem scanStep_fst_ne (mode : String) (thr : ℚ) (grace now : Nat) (user : String)
    (st : PendingMap × List Nat) (o : ScanObs) (q : Nat) (hq : q ≠ o.pid) :
    (scanStep mode thr grace now user st o).1 q = st.1 q := by
  unfold scanStep
  repeat' split
  all_goals simp [hq]

theorem scanStep_snd (mode : String) (thr : ℚ) (grace now : Nat) (user : String)
    (st : PendingMap × List Nat) (o : ScanObs) :
    (scanStep mode thr grace now user st o).2
      = if o.excluded then st.2 else o.pid :: st.2 := by
  unfold scanStep
  repeat' split
  all_goals simp_all

theorem scanStep_fst_self (mode : String) (thr : ℚ) (grace now : Nat) (user : String)
    (st : PendingMap × List Nat) (o : ScanObs) (hexc : o.excluded = false) :
    (scanStep mode thr grace now user st o).1 o.pid
      = stepAt mode thr grace now user o (st.1 o.pid) := by
  cases hvan : o.vanished <;>
    rcases hms : o.match_state with _ | state <;>
    rcases hv : st.1 o.pid with _ | e <;>
    simp only [scanStep, stepAt, hexc, hvan, hms, hv, Bool.false_eq_true, if_false,
      if_true, Option.isSome_none, Option.isSome_some, false_and, true_and] <;>
    repeat' split
  all_goals simp_all

theorem fold_seen_mem (mode : String) (thr : ℚ) (grace now : Nat) (user : String)
    (obs : List ScanObs) :
    ∀ (st : PendingMap × List Nat) (q : Nat),
      q ∈ (obs.foldl (scanStep mode thr grace now user) st).2 ↔
        q ∈ st.2 ∨ ∃ o ∈ obs, o.pid = q ∧ o.excluded = false := by
  induction obs with
  | nil => intro st q; simp
  | cons o rest ih =>
    intro st q
    rw [List.foldl_cons, ih]
    rw [scanStep_snd]
    cases hexc : o.excluded
    · rw [if_neg (by simp [hexc])]
      constructor
      · rintro (h | ⟨o', ho', h1, h2⟩)
        · rcases List.mem_cons.mp h with h | h
          · exact Or.inr ⟨o, List.mem_cons_self o rest, h.symm, hexc⟩
          · exact Or.inl h
        · exact Or.inr ⟨o', List.mem_cons_of_mem o ho', h1, h2⟩
      · rintro (h | ⟨o', ho', h1, h2⟩)
        · exact Or.inl (List.mem_cons_of_mem _ h)
        · rcases List.mem_cons.mp ho' with h | h
          · subst h
            refine Or.inl ?_
            rw [← h1]
            exact List.mem_cons_self _ _
          · exact Or.inr ⟨o', h, h1, h2⟩
    · rw [if_pos rfl]
      constructor
      · rintro (h | ⟨o', ho', h1, h2⟩)
        · exact Or.inl h
        · exact Or.inr ⟨o', List.mem_cons_of_mem o ho', h1, h2⟩
      · rintro (h | ⟨o', ho', h1, h2⟩)
        · exact Or.inl h
        · rcases List.mem_cons.mp ho' with h | h
          · subst h
            rw [h2] at hexc
            exact absurd hexc (by simp)
          · exact Or.inr ⟨o', h, h1, h2⟩

theorem fold_fst_char (mode : String) (thr : ℚ) (grace now : Nat) (user : String)
    (obs : List ScanObs) (hnd : (obs.map ScanObs.pid).Nodup) :
    ∀ (st : PendingMap × List Nat) (p : Nat),
      (obs.foldl (scanStep mode thr grace now user) st).1 p =
        match obs.find? (fun o => o.pid == p && !o.excluded) with
        | none => st.1 p
        | some o => stepAt mode thr grace now user o (st.1 p) := by
  induction obs with
  | nil => intro st p; rfl
  | cons o rest ih =>
    intro st p
    rw [List.map_cons, List.nodup_cons] at hnd
    obtain ⟨hno, hndrest⟩ := hnd
    rw [List.foldl_cons, ih hndrest]
    by_cases hp : o.pid = p
    · have hrest : rest.find? (fun o' => o'.pid == p && !o'.excluded) = none := by
        rw [List.find?_eq_none]
        intro o' ho'
        have hne : o'.pid ≠ p := by
          intro hcontra
          have heq : o'.pid = o.pid := hcontra.trans hp.symm
          exact hno (heq ▸ List.mem_map_of_mem ScanObs.pid ho')
        simp [hne]
      rw [hrest]
      cases hexc : o.excluded
      · have hfind : (o :: rest).find? (fun o' => o'.pid == p && !o'.excluded) = some o :=
          List.find?_cons_of_pos rest (by simp [hp, hexc])
        rw [hfind]
        rw [← hp, scanStep_fst_self mode thr grace now user st o hexc]
      · have hfind : (o :: rest).find? (fun o' => o'.pid == p && !o'.excluded)
            = rest.find? (fun o' => o'.pid == p && !o'.excluded) :=
          List.find?_cons_of_neg rest (by simp [hexc])
        rw [hfind, hrest]
        have hskip : scanStep mode thr grace now user st o = st := by
          unfold scanStep
          rw [if_pos hexc]
        rw [hskip]
    · have hfind : (o :: rest).find? (fun o' => o'.pid == p && !o'.excluded)
          = rest.find? (fun o' => o'.pid == p && !o'.excluded) :=
        List.find?_cons_of_neg rest (by simp [hp])
      rw [hfind]
      have hne : (scanStep mode thr grace now user st o).1 p = st.1 p :=
        scanStep_fst_ne mode thr grace now user st o p (fun h => hp h.symm)
      cases hrest : rest.find? (fun o' => o'.pid == p && !o'.excluded) <;> simp [hne]

/-- C3 (amended): after one user's scan, the Strict-pending map is given
pointwise by `expected_pending`: a pid not observed (non-excluded) during
that user's scan is purged; an observed pid's entry is the result of its
own observation's transition — removed when it matched an `active` or
`ignored` pattern, newly added when unmatched in strict mode at CPU ≥
the discovery threshold, removed (terminated) in that same case when its
grace had elapsed, and otherwise kept unchanged (in particular an
observed pending pid below the CPU threshold stays pending even after
its grace elapses). -/
theorem scan_strict_pending_characterization (mode : String) (thr : ℚ)
    (grace now : Nat) (user : String) (pending : PendingMap) (obs : List ScanObs)
    (hnd : (obs.map ScanObs.pid).Nodup) (p : Nat) :
    scan_strict_pending mode thr grace now user pending obs p
      = expected_pending mode thr grace now user pending obs p := by
  unfold scan_strict_pending expected_pending
  cases hfind : obs.find? (fun o => o.pid == p && !o.excluded) with
  | none =>
    have hforall := List.find?_eq_none.mp hfind
    have hnomem : p ∉ (obs.foldl (scanStep mode thr grace now user) (pending, [])).2 := by
      rw [fold_seen_mem]
      rintro (h | ⟨o, ho, h1, h2⟩)
      · exact absurd h (List.not_mem_nil p)
      · exact absurd (by simp [h1, h2]) (hforall o ho)
    simp [hnomem]
  | some o =>
    have ho : o ∈ obs := List.mem_of_find?_eq_some hfind
    have hpred := List.find?_some hfind
    have hpid : o.pid = p := by
      have := (Bool.and_eq_true _ _).mp hpred
      exact beq_iff_eq.mp this.1
    have hexc : o.excluded = false := by
      have := (Bool.and_eq_true _ _).mp hpred
      simpa using this.2
    have hmem : p ∈ (obs.foldl (scanStep mode thr grace now user) (pending, [])).2 := by
      rw [fold_seen_mem]
      exact Or.inr ⟨o, ho, hpid, hexc⟩
    simp only [hmem, if_true]
    rw [fold_fst_char mode thr grace now user obs hnd, hfind]

/-- C3 amended-theorem witness: the single observation of pid 7
(unmatched, CPU 40 ≥ threshold 25, not previously pending, in strict
mode) yields exactly the newly warned entry. -/
theorem scan_strict_pending_characterization_witness :
    scan_strict_pending "strict" 25 30 100 "anders" (fun _ => none)
      [{ pid := 7, name := "unknowngame", cmdline := "./unknowngame",
         excluded := false, vanished := false, cpu := 40, match_state := none }] 7
      = expected_pending "strict" 25 30 100 "anders" (fun _ => none)
          [{ pid := 7, name := "unknowngame", cmdline := "./unknowngame",
             excluded := false, vanished := false, cpu := 40, match_state := none }] 7 :=
  scan_strict_pending_characterization "strict" 25 30 100 "anders" (fun _ => none)
    [{ pid := 7, name := "unknowngame", cmdline := "./unknowngame",
       excluded := false, vanished := false, cpu := 40, match_state := none }]
    (by decide) 7

/-- C3 counterexample to the claim as stated: a previously pending pid
(warned at 0) observed this tick while unmatched but BELOW the discovery
CPU threshold remains in the Strict-pending map even though its grace
period (30 s) has long elapsed at now = 100 — the map does not contain
only entries "whose grace period has not yet elapsed". -/
theorem strict_pending_keeps_grace_elapsed_pid :
    scan_strict_pending "strict" 25 30 100 "anders"
      (fun p => if p = 7 then
          some { name := "unknowngame", warned_at := 0, user := "anders",
                 cmdline := "./unknowngame" }
        else none)
      [{ pid := 7, name := "unknowngame", cmdline := "./unknowngame",
         excluded := false, vanished := false, cpu := 0, match_state := none }] 7
      = some { name := "unknowngame", warned_at := 0, user := "anders",
               cmdline := "./unknowngame" } ∧
    30 ≤ 100 - 0 := by
  constructor
  · decide
  · decide

theorem digit_char_spec (d : Nat) (hd : d < 10) :
    (Char.ofNat (48 + d)).isDigit = true ∧ (Char.ofNat (48 + d)).toNat = 48 + d ∧
    Char.ofNat (48 + d) ≠ ',' ∧ Char.ofNat (48 + d) ≠ '-' := by
  interval_cases d <;> exact ⟨by decide, by decide, by decide, by decide⟩

theorem natToChars_ne_nil (n : Nat) : natToChars n ≠ [] := by
  unfold natToChars
  split
  · simp
  · case _ h =>
    intro hc
    have hlen := congrArg List.length hc
    simp only [List.length_map, List.length_reverse, List.length_nil] at hlen
    exact (Nat.digits_ne_nil_iff_ne_zero.mpr h) (List.length_eq_zero.mp hlen)

theorem mem_natToChars (n : Nat) (c : Char) (hc : c ∈ natToChars n) :
    ∃ d, d < 10 ∧ c = Char.ofNat (48 + d) := by
  unfold natToChars at hc
  split at hc
  · simp only [List.mem_singleton] at hc
    exact ⟨0, by norm_num, by rw [hc]⟩
  · rcases List.mem_map.mp hc with ⟨d, hd, hcd⟩
    have hd' : d ∈ Nat.digits 10 n := List.mem_reverse.mp hd
    exact ⟨d, Nat.digits_lt_base (by norm_num) hd', hcd.symm⟩

theorem parseNatDigits_natToChars (n : Nat) :
    parseNatDigits (natToChars n) = some n := by
  by_cases h0 : n = 0
  · subst h0; decide
  · have hdig : ∀ c ∈ natToChars n, c.isDigit = true := by
      intro c hc
      obtain ⟨d, hd, rfl⟩ := mem_natToChars n c hc
      exact (digit_char_spec d hd).1
    unfold parseNatDigits
    rw [if_pos ⟨natToChars_ne_nil n, List.all_eq_true.mpr hdig⟩]
    congr 1
    unfold natToChars
    rw [if_neg h0]
    rw [List.foldl_map]
    have hfold : ∀ (l : List Nat), (∀ d ∈ l, d < 10) → ∀ a : Nat,
        l.foldl (fun acc d => 10 * acc + ((Char.ofNat (48 + d)).toNat - 48)) a
          = l.foldl (fun acc d => 10 * acc + d) a := by
      intro l
      induction l with
      | nil => intro _ _; rfl
      | cons d l ih =>
        intro hl a
        simp only [List.foldl_cons]
        rw [(digit_char_spec d (hl d (List.mem_cons_self d l))).2.1,
          Nat.add_sub_cancel_left]
        exact ih (fun d' hd' => hl d' (List.mem_cons_of_mem d hd')) (10 * a + d)
    rw [hfold _ (fun d hd => Nat.digits_lt_base (by norm_num) (List.mem_reverse.mp hd)) 0]
    rw [List.foldl_reverse]
    have hofd : ∀ l : List Nat, l.foldr (fun d acc => 10 * acc + d) 0 = Nat.ofDigits 10 l := by
      intro l
      induction l with
      | nil => simp [Nat.ofDigits_nil]
      | cons d l ih =>
        rw [List.foldr_cons, ih, Nat.ofDigits_cons]
        ring
    rw [hofd]
    exact_mod_cast Nat.ofDigits_digits 10 n

theorem parseInt_intToChars (i : Int) : parseInt (intToChars i) = some i := by
  unfold intToChars
  split
  · case _ hneg =>
    have hcond : ('-' :: natToChars i.natAbs).head? = some '-' := rfl
    unfold parseInt
    rw [if_pos hcond, List.tail_cons, parseNatDigits_natToChars]
    simp only [Option.map_some']
    congr 1
    simp only [Int.ofNat_eq_coe]
    omega
  · case _ hpos =>
    have hnonneg : 0 ≤ i := not_lt.mp hpos
    unfold parseInt
    rw [if_neg ?hcond]
    case hcond =>
      intro hcontra
      have hmem : '-' ∈ natToChars i.toNat := by
        cases hh : natToChars i.toNat with
        | nil => exact absurd hh (natToChars_ne_nil _)
        | cons c rest =>
          rw [hh] at hcontra
          simp only [List.head?_cons, Option.some.injEq] at hcontra
          rw [hcontra]
          exact List.mem_cons_self _ _
      obtain ⟨d, hd, hEq⟩ := mem_natToChars _ _ hmem
      exact (digit_char_spec d hd).2.2.2 hEq.symm
    rw [parseNatDigits_natToChars]
    simp only [Option.map_some']
    congr 1
    simp only [Int.ofNat_eq_coe]
    omega

theorem comma_not_mem_intToChars (i : Int) : ',' ∉ intToChars i := by
  intro hc
  unfold intToChars at hc
  split at hc
  · rcases List.mem_cons.mp hc with h | h
    · exact absurd h (by decide)
    · obtain ⟨d, hd, hEq⟩ := mem_natToChars _ _ h
      exact (digit_char_spec d hd).2.2.1 hEq.symm
  · obtain ⟨d, hd, hEq⟩ := mem_natToChars _ _ hc
    exact (digit_char_spec d hd).2.2.1 hEq.symm

theorem intToChars_ne_nil (i : Int) : intToChars i ≠ [] := by
  unfold intToChars
  split
  · simp
  · exact natToChars_ne_nil _

theorem splitComma_cons (c : Char) (rest : List Char) :
    splitComma (c :: rest) = if c = ',' then [] :: splitComma rest
      else match splitComma rest with
        | [] => [[c]]
        | part :: parts => (c :: part) :: parts := rfl

theorem splitComma_no_comma (p : List Char) (hp : ',' ∉ p) : splitComma p = [p] := by
  induction p with
  | nil => rfl
  | cons c rest ih =>
    have hc : c ≠ ',' := fun h => hp (h ▸ List.mem_cons_self c rest)
    have hrest : ',' ∉ rest := fun h => hp (List.mem_cons_of_mem c h)
    rw [splitComma_cons, if_neg hc, ih hrest]

theorem splitComma_append (p : List Char) (hp : ',' ∉ p) (rest : List Char) :
    splitComma (p ++ ',' :: rest) = p :: splitComma rest := by
  induction p with
  | nil =>
    rw [List.nil_append, splitComma_cons, if_pos rfl]
  | cons c p ih =>
    have hc : c ≠ ',' := fun h => hp (h ▸ List.mem_cons_self c p)
    have hp' : ',' ∉ p := fun h => hp (List.mem_cons_of_mem c h)
    rw [List.cons_append, splitComma_cons, if_neg hc, ih hp']

theorem splitComma_joinComma (parts : List (List Char)) (hne : parts ≠ [])
    (h : ∀ p ∈ parts, ',' ∉ p) : splitComma (joinComma parts) = parts := by
  induction parts with
  | nil => exact absurd rfl hne
  | cons p ps ih =>
    cases ps with
    | nil => exact splitComma_no_comma p (h p (List.mem_cons_self _ _))
    | cons q qs =>
      have hjoin : joinComma (p :: q :: qs) = p ++ ',' :: joinComma (q :: qs) := rfl
      rw [hjoin, splitComma_append p (h p (List.mem_cons_self _ _))]
      rw [ih (by simp) (fun p' hp' => h p' (List.mem_cons_of_mem p hp'))]

theorem mapM_parseInt_intToChars (l : List Int) :
    (l.map intToChars).mapM parseInt = some l := by
  induction l with
  | nil => rfl
  | cons i l ih =>
    rw [List.map_cons, List.mapM_cons, parseInt_intToChars, ih]
    rfl

theorem format_daily_limits_ne_nil (l : List Int) (hl : l ≠ []) :
    format_daily_limits l ≠ [] := by
  obtain ⟨i0, l', rfl⟩ := List.exists_cons_of_ne_nil hl
  unfold format_daily_limits
  rw [List.map_cons]
  cases hmap : l'.map intToChars with
  | nil => exact intToChars_ne_nil i0
  | cons q qs => simp [joinComma]

theorem parse_format_daily_limits (l : List Int) (hlen : l.length = 7) :
    parse_daily_limits (format_daily_limits l) = some l := by
  have hlne : l ≠ [] := by
    intro h
    rw [h] at hlen
    simp at hlen
  have hfne : format_daily_limits l ≠ [] := format_daily_limits_ne_nil l hlne
  have hsplit : splitComma (format_daily_limits l) = l.map intToChars := by
    unfold format_daily_limits
    refine splitComma_joinComma _ (by simp [hlne]) ?_
    intro p hp
    rcases List.mem_map.mp hp with ⟨i, _, rfl⟩
    exact comma_not_mem_intToChars i
  unfold parse_daily_limits
  rw [if_neg hfne]
  simp only [hsplit, List.length_map, hlen]
  rw [if_neg (by omega)]
  exact mapM_parseInt_intToChars l

theorem get_schedule_stored (r : UserLimitsRow) (s : String)
    (h : r.schedule = some s) (hne : s ≠ "") : get_schedule (some r) = s := by
  simp [get_schedule, h, hne]

theorem get_daily_limits_stored (r : UserLimitsRow) (dl : String)
    (h : r.daily_limits = some dl) (hne : dl ≠ "") :
    get_daily_limits (some r) = parse_daily_limits dl.data := by
  simp [get_daily_limits, h, hne]

theorem default_schedule_len : DEFAULT_SCHEDULE.length = 168 := by
  simp only [DEFAULT_SCHEDULE, SCHEDULE_LEN, String.length, List.length_replicate]

theorem default_schedule_mem (c : Char) (hc : c ∈ DEFAULT_SCHEDULE.data) : c = '0' :=
  List.eq_of_mem_replicate hc

/-- C8: for a user with an existing `user_limits` row (satisfying the data
model invariant: the stored schedule is NULL/empty or a valid 168-char
0/1 string, and the stored daily limits are NULL/empty or parse to seven
non-negative integers), importing the output of the schedule export
succeeds and leaves the stored 168-character schedule string and
7-element daily-limits list equal to the exported values — only row
metadata differs. -/
theorem schedule_export_import_roundtrip (r : UserLimitsRow)
    (hsched : r.schedule = none ∨ r.schedule = some "" ∨
      ∃ s, r.schedule = some s ∧ s.length = 168 ∧ ∀ c ∈ s.data, c = '0' ∨ c = '1')
    (hdl : r.daily_limits = none ∨ r.daily_limits = some "" ∨
      ∃ dl l, r.daily_limits = some dl ∧ parse_daily_limits dl.data = some l ∧
        l.length = 7 ∧ ∀ x ∈ l, 0 ≤ x) :
    ∃ e r', schedule_export r = some e ∧ schedule_import e r = some r' ∧
      r'.schedule = some e.schedule ∧
      get_schedule (some r') = e.schedule ∧
      get_daily_limits (some r') = some e.daily_limits ∧
      e.schedule = get_schedule (some r) ∧
      some e.daily_limits = get_daily_limits (some r) := by
  have hrepl7 : (List.replicate 7 (120 : Int)).length = 7 := by simp
  have hreplnn : ∀ x ∈ List.replicate 7 (120 : Int), 0 ≤ x := by
    intro x hx
    have := List.eq_of_mem_replicate hx
    omega
  obtain ⟨L, hLget, hL7, hLnn⟩ :
      ∃ L, get_daily_limits (some r) = some L ∧ L.length = 7 ∧ ∀ x ∈ L, 0 ≤ x := by
    rcases hdl with h | h | ⟨dl, l, hdl1, hdl2, hdl3, hdl4⟩
    · exact ⟨_, by simp [get_daily_limits, h], hrepl7, hreplnn⟩
    · exact ⟨_, by simp [get_daily_limits, h], hrepl7, hreplnn⟩
    · by_cases hdl0 : dl = ""
      · have hl : l = List.replicate 7 120 := by
          rw [hdl0] at hdl2
          have : parse_daily_limits ("" : String).data = some (List.replicate 7 120) := rfl
          rw [this] at hdl2
          exact (Option.some.injEq _ _ ▸ hdl2).symm
        exact ⟨_, by simp [get_daily_limits, hdl1, hdl0], hrepl7, hreplnn⟩
      · exact ⟨l, by simp [get_daily_limits, hdl1, hdl0, hdl2], hdl3, hdl4⟩
  have hS : (get_schedule (some r)).length = 168 ∧
      ∀ c ∈ (get_schedule (some r)).data, c = '0' ∨ c = '1' := by
    rcases hsched with h | h | ⟨s, h1, h2, h3⟩
    · refine ⟨?_, ?_⟩ <;> simp only [get_schedule, h]
      · exact default_schedule_len
      · exact fun c hc => Or.inl (default_schedule_mem c hc)
    · refine ⟨?_, ?_⟩ <;> simp only [get_schedule, h, if_pos rfl]
      · exact default_schedule_len
      · exact fun c hc => Or.inl (default_schedule_mem c hc)
    · have hne : s ≠ "" := by
        intro hcontra
        rw [hcontra] at h2
        simp [String.length] at h2
      refine ⟨?_, ?_⟩ <;> simp only [get_schedule, h1, if_neg hne]
      · exact h2
      · exact h3
  have hexp : schedule_export r
      = some ⟨get_schedule (some r), L⟩ := by
    simp [schedule_export, hLget]
  have hvalid : import_entry_valid ⟨get_schedule (some r), L⟩ = true := by
    unfold import_entry_valid
    simp only [Bool.and_eq_true, beq_iff_eq, List.all_eq_true]
    refine ⟨⟨⟨hS.1, ?_⟩, hL7⟩, ?_⟩
    · intro c hc
      rcases hS.2 c hc with h | h <;> simp [h]
    · intro x hx
      simpa using hLnn x hx
  have hschedne : get_schedule (some r) ≠ "" := by
    intro hcontra
    rw [hcontra] at hS
    simp [String.length] at hS
  have hfmtne : String.mk (format_daily_limits L) ≠ "" := by
    intro hcontra
    have : format_daily_limits L = [] := by
      have := congrArg String.data hcontra
      simpa using this
    exact format_daily_limits_ne_nil L (by
      intro h
      rw [h] at hL7
      simp at hL7) this
  refine ⟨⟨get_schedule (some r), L⟩,
    set_daily_limits (set_schedule r (get_schedule (some r))) L,
    hexp, ?_, rfl, ?_, ?_, rfl, hLget.symm⟩
  · simp [schedule_import, hvalid]
  · exact get_schedule_stored _ _ rfl hschedne
  · rw [get_daily_limits_stored _ _ rfl hfmtne]
    exact parse_format_daily_limits L hL7

/-- C8 witness: a user whose row stores NULL schedule and NULL daily
limits round-trips through export and import. -/
theorem schedule_export_import_roundtrip_witness :
    ∃ e r', schedule_export ⟨none, none, true⟩ = some e ∧
      schedule_import e ⟨none, none, true⟩ = some r' ∧
      r'.schedule = some e.schedule ∧
      get_schedule (some r') = e.schedule ∧
      get_daily_limits (some r') = some e.daily_limits ∧
      e.schedule = get_schedule (some ⟨none, none, true⟩) ∧
      some e.daily_limits = get_daily_limits (some ⟨none, none, true⟩) :=
  schedule_export_import_roundtrip ⟨none, none, true⟩ (Or.inl rfl) (Or.inl rfl)

/-- C5: for a pid tracked as an active game, a tick at or above the
pattern's `cpu_threshold` resets the consecutive sub-threshold counter to
zero; starting from a reset counter, one or two consecutive sub-threshold
ticks keep the pid tracked (with the counter equal to the number of such
ticks), and the third consecutive sub-threshold tick drops it; in
general a sub-threshold tick drops a tracked pid exactly when its counter
already reached 2. -/
theorem hysteresis_three_strikes (p : ProcessMatch) (pid : Nat) (nm cl : String)
    (cpu_hi cpu_lo thr : ℚ) (hhi : thr ≤ cpu_hi) (hlo : cpu_lo < thr) :
    (∃ q, gamingTrackStep (some p) pid nm cl cpu_hi thr = some q ∧ q.low_cpu_count = 0) ∧
    (gamingTrackStep (some p) pid nm cl cpu_lo thr = none ↔ 2 ≤ p.low_cpu_count) ∧
    (p.low_cpu_count = 0 →
      (∀ n, n ≤ 2 → ∃ q, iterSubThreshold pid nm cl cpu_lo thr (some p) n = some q ∧
          q.low_cpu_count = n) ∧
      iterSubThreshold pid nm cl cpu_lo thr (some p) 3 = none) := by
  have habove : (decide (thr ≤ cpu_hi)) = true := decide_eq_true hhi
  have hbelow : (decide (thr ≤ cpu_lo)) = false := decide_eq_false (not_le.mpr hlo)
  have hstep : ∀ q : ProcessMatch, gamingTrackStep (some q) pid nm cl cpu_lo thr =
      if q.low_cpu_count + 1 ≥ 3 then none
      else some { pid := pid, name := nm, category := "gaming", cmdline := cl,
                  cpu_percent := cpu_lo, session_id := q.session_id,
                  low_cpu_count := q.low_cpu_count + 1 } := by
    intro q
    simp [gamingTrackStep, hbelow]
  refine ⟨?_, ?_, ?_⟩
  · exact ⟨{ pid := pid, name := nm, category := "gaming", cmdline := cl,
             cpu_percent := cpu_hi, session_id := p.session_id, low_cpu_count := 0 },
           by simp [gamingTrackStep, habove], rfl⟩
  · rw [hstep p]
    constructor
    · intro h
      by_contra hc
      rw [if_neg (by omega)] at h
      exact Option.noConfusion h
    · intro h
      rw [if_pos (by omega)]
  · intro hp0
    set q1 : ProcessMatch :=
      { pid := pid, name := nm, category := "gaming", cmdline := cl,
        cpu_percent := cpu_lo, session_id := p.session_id, low_cpu_count := 1 } with hq1
    set q2 : ProcessMatch :=
      { pid := pid, name := nm, category := "gaming", cmdline := cl,
        cpu_percent := cpu_lo, session_id := p.session_id, low_cpu_count := 2 } with hq2
    have hiter : ∀ n, iterSubThreshold pid nm cl cpu_lo thr (some p) (n + 1)
        = (iterSubThreshold pid nm cl cpu_lo thr (some p) n).bind
            (fun q => gamingTrackStep (some q) pid nm cl cpu_lo thr) :=
      fun _ => rfl
    have h0 : iterSubThreshold pid nm cl cpu_lo thr (some p) 0 = some p := rfl
    have h1 : iterSubThreshold pid nm cl cpu_lo thr (some p) 1 = some q1 := by
      rw [hiter 0, h0, Option.some_bind, hstep p, if_neg (by omega)]
      simp [hq1, hp0]
    have h2 : iterSubThreshold pid nm cl cpu_lo thr (some p) 2 = some q2 := by
      rw [hiter 1, h1, Option.some_bind, hstep q1, if_neg (by simp [hq1])]
    have h3 : iterSubThreshold pid nm cl cpu_lo thr (some p) 3 = none := by
      rw [hiter 2, h2, Option.some_bind, hstep q2, if_pos (by simp [hq2])]
    refine ⟨?_, h3⟩
    intro n hn
    interval_cases n
    · exact ⟨p, h0, hp0⟩
    · exact ⟨q1, h1, rfl⟩
    · exact ⟨q2, h2, rfl⟩

/-- C5 witness: a concrete tracked game (counter 0) with threshold 10%,
an above-threshold tick at 40% and sub-threshold ticks at 1%. -/
theorem hysteresis_three_strikes_witness :
    (∃ q, gamingTrackStep (some ⟨123, "FalloutNV.exe", "gaming", "c", 40, none, 0⟩)
        123 "FalloutNV" "c" 40 10 = some q ∧ q.low_cpu_count = 0) ∧
    (gamingTrackStep (some ⟨123, "FalloutNV.exe", "gaming", "c", 40, none, 0⟩)
        123 "FalloutNV" "c" 1 10 = none ↔
      2 ≤ (ProcessMatch.low_cpu_count ⟨123, "FalloutNV.exe", "gaming", "c", 40, none, 0⟩)) ∧
    ((ProcessMatch.low_cpu_count ⟨123, "FalloutNV.exe", "gaming", "c", 40, none, 0⟩) = 0 →
      (∀ n, n ≤ 2 → ∃ q, iterSubThreshold 123 "FalloutNV" "c" 1 10
          (some ⟨123, "FalloutNV.exe", "gaming", "c", 40, none, 0⟩) n = some q ∧
          q.low_cpu_count = n) ∧
      iterSubThreshold 123 "FalloutNV" "c" 1 10
          (some ⟨123, "FalloutNV.exe", "gaming", "c", 40, none, 0⟩) 3 = none) :=
  hysteresis_three_strikes ⟨123, "FalloutNV.exe", "gaming", "c", 40, none, 0⟩
    123 "FalloutNV" "c" 40 1 10 (by norm_num) (by norm_num)

/-- C4 witness: a 3.5-hour suspend gap (12600 s) at the default 30 s poll
interval credits only 60 seconds. -/
theorem elapsed_capped_at_twice_poll_witness :
    computeElapsed 30 true (some (20000 - 12600)) 20000 = min 12600 (2 * 30) ∧
    (tickSummaryUpdate (some ⟨100, 200, 0, 0⟩) true
        (computeElapsed 30 true (some (20000 - 12600)) 20000) 0).gaming_time
      = 100 + min 12600 (2 * 30) ∧
    (tickSummaryUpdate (some ⟨100, 200, 0, 0⟩) true
        (computeElapsed 30 true (some (20000 - 12600)) 20000) 0).total_time
      = 200 + min 12600 (2 * 30) ∧
    min 12600 (2 * 30) ≤ 2 * 30 :=
  elapsed_capped_at_twice_poll 30 12600 20000 ⟨100, 200, 0, 0⟩ 0 (by norm_num)

end Playtimed
